import Mathlib

/-!
Shallow embedding of the Rudra AI 2.0 session state engine
(`src/state/session/store.tsx`, `src/state/session/types.ts`,
`src/state/session/persistence.ts`) and proofs about the claims of the
specification.

Modelling conventions:
* JS numbers used as indices are `Int` (they may be negative or out of range
  in raw data); timestamps are `Nat`.
* `Date.now()` is an explicit `now : Nat` argument of every function that
  reads the clock, as the spec's "injectable clock" prescribes.
* `Record<string, TabGroup>` is modelled as an insertion-ordered association
  list.
* A reducer step returns a `ReducerResult`: `sameRef = true` exactly on the
  code paths that execute `return state` (returning the identical JS object
  reference); every `return { ...state, ... }` path yields `sameRef = false`
  together with the rebuilt state.
-/

namespace Rudra

/-- `TabStatus` from types.ts: "normal" | "pinned" | "sleeping" | "discarded". -/
inductive TabStatus where
  | normal
  | pinned
  | sleeping
  | discarded
deriving DecidableEq, Repr

/-- Chat message role: "user" | "ai". -/
inductive ChatRole where
  | user
  | ai
deriving DecidableEq, Repr

/-- `ChatMessage` from types.ts. -/
structure ChatMessage where
  role : ChatRole
  content : String
  createdAt : Nat
deriving DecidableEq, Repr

/-- `TabHistoryEntry` from types.ts. -/
structure TabHistoryEntry where
  id : String
  url : String
  title : String
  timestamp : Nat
deriving DecidableEq, Repr

/-- `Tab` from types.ts.  `historyIndex` is an `Int` because a raw/foreign
snapshot may carry a negative or out-of-range number (the code's
`typeof raw.historyIndex === "number"` guard corresponds to having an `Int`
here at all; a non-numeric value behaves exactly like an out-of-range one). -/
structure Tab where
  id : String
  title : String
  url : String
  addressValue : String
  addressInput : String
  pageTitle : String
  pageText : String
  chatHistory : List ChatMessage
  assistantOpen : Bool
  active : Bool
  status : TabStatus
  incognito : Bool
  groupId : Option String
  history : List TabHistoryEntry
  historyIndex : Int
  createdAt : Nat
  lastActiveAt : Nat
deriving DecidableEq, Repr

/-- `TabSnapshot = Omit<Tab, "active">` from types.ts. -/
structure TabSnapshot where
  id : String
  title : String
  url : String
  addressValue : String
  addressInput : String
  pageTitle : String
  pageText : String
  chatHistory : List ChatMessage
  assistantOpen : Bool
  status : TabStatus
  incognito : Bool
  groupId : Option String
  history : List TabHistoryEntry
  historyIndex : Int
  createdAt : Nat
  lastActiveAt : Nat
deriving DecidableEq, Repr

/-- `TabGroup` from types.ts (`color` and `collapsed` are optional). -/
structure TabGroup where
  id : String
  title : String
  color : Option String := none
  collapsed : Option Bool := none
deriving DecidableEq, Repr

/-- Close reason: "user" | "system" | "crash". -/
inductive CloseReason where
  | user
  | system
  | crash
deriving DecidableEq, Repr

/-- `RecentlyClosedEntry` from types.ts (`reason` is optional). -/
structure RecentlyClosedEntry where
  tab : TabSnapshot
  closedAt : Nat
  reason : Option CloseReason := none
deriving DecidableEq, Repr

/-- `PermissionPolicy` from types.ts: "allow" | "ask" | "block". -/
inductive PermissionPolicy where
  | allow
  | ask
  | block
deriving DecidableEq, Repr

/-- `PermissionSettings` from types.ts. -/
structure PermissionSettings where
  camera : PermissionPolicy
  microphone : PermissionPolicy
  screen : PermissionPolicy
  clipboard : PermissionPolicy
deriving DecidableEq, Repr

/-- `SessionSettings` from types.ts. -/
structure SessionSettings where
  confirmCloseThreshold : Int
  restoreSidebar : Bool
  defaultSearchEngine : String
  blockAds : Bool
  blockTrackers : Bool
  blockThirdPartyCookies : Bool
  autoHttpsUpgrade : Bool
  clearCookiesOnExit : Bool
  sendDoNotTrack : Bool
  permissionPolicy : PermissionSettings
deriving DecidableEq, Repr

/-- `SessionState` from types.ts.  `tabGroups : Record<string, TabGroup>` is
modelled as an insertion-ordered association list. -/
structure SessionState where
  tabs : List Tab
  activeTabId : Option String
  tabGroups : List (String × TabGroup)
  recentlyClosed : List RecentlyClosedEntry
  suggestionHistory : List String
  settings : SessionSettings
  version : Int
  hydrated : Bool
deriving DecidableEq, Repr

/-- `Omit<SessionState, "hydrated">`: the persisted part of the state. -/
structure PersistedState where
  tabs : List Tab
  activeTabId : Option String
  tabGroups : List (String × TabGroup)
  recentlyClosed : List RecentlyClosedEntry
  suggestionHistory : List String
  settings : SessionSettings
  version : Int
deriving DecidableEq, Repr

/-- `SessionSnapshot` from types.ts. -/
structure SessionSnapshot where
  version : Int
  savedAt : Nat
  state : PersistedState
deriving DecidableEq, Repr

/-- `CreateTabOptions` from types.ts (every field optional).  A `groupId`
explicitly set to null is `some none`. -/
structure CreateTabOptions where
  url : Option String := none
  title : Option String := none
  incognito : Option Bool := none
  status : Option TabStatus := none
  groupId : Option (Option String) := none
  addressInput : Option String := none
deriving DecidableEq, Repr

/-- `Partial<Tab>`: the payload of TAB_PATCH.  A field that is `none` is
absent from the patch object (spreading it leaves the tab's field alone). -/
structure TabPatch where
  id : Option String := none
  title : Option String := none
  url : Option String := none
  addressValue : Option String := none
  addressInput : Option String := none
  pageTitle : Option String := none
  pageText : Option String := none
  chatHistory : Option (List ChatMessage) := none
  assistantOpen : Option Bool := none
  active : Option Bool := none
  status : Option TabStatus := none
  incognito : Option Bool := none
  groupId : Option (Option String) := none
  history : Option (List TabHistoryEntry) := none
  historyIndex : Option Int := none
  createdAt : Option Nat := none
  lastActiveAt : Option Nat := none
deriving DecidableEq, Repr

/-- `Partial<PermissionSettings>`. -/
structure PartialPermissionSettings where
  camera : Option PermissionPolicy := none
  microphone : Option PermissionPolicy := none
  screen : Option PermissionPolicy := none
  clipboard : Option PermissionPolicy := none
deriving DecidableEq, Repr

/-- `Partial<SessionSettings>`: the payload of SESSION_UPDATE_SETTINGS. -/
structure PartialSessionSettings where
  confirmCloseThreshold : Option Int := none
  restoreSidebar : Option Bool := none
  defaultSearchEngine : Option String := none
  blockAds : Option Bool := none
  blockTrackers : Option Bool := none
  blockThirdPartyCookies : Option Bool := none
  autoHttpsUpgrade : Option Bool := none
  clearCookiesOnExit : Option Bool := none
  sendDoNotTrack : Option Bool := none
  permissionPolicy : Option PartialPermissionSettings := none
deriving DecidableEq, Repr

/-- The `SessionAction` union type of store.tsx. -/
inductive SessionAction where
  | tabAdd (tab : Tab) (makeActive : Bool)
  | tabClose (tabId : String) (reason : Option CloseReason)
  | tabSetActive (tabId : String)
  | tabPatch (tabId : String) (patch : TabPatch)
  | tabSetAssistant (tabId : String) (isOpen : Bool)
  | tabAppendChat (tabId : String) (message : ChatMessage)
  | tabSetStatus (tabId : String) (status : TabStatus)
  | tabAssignGroup (tabId : String) (groupId : Option String)
  | tabReorder (pinnedIds : List String) (regularIds : List String)
  | tabReopen (entry : Option RecentlyClosedEntry)
  | suggestionAdd (value : String)
  | sessionRehydrate (payload : SessionSnapshot)
  | sessionReady
  | sessionUpdateSettings (payload : PartialSessionSettings)
  | tabGroupUpsert (payload : TabGroup)
  | tabGroupDelete (groupId : String)
  | tabGroupToggleCollapse (groupId : String)
  | tabCloseAll (newTab : Tab)
deriving DecidableEq, Repr

/-- JS `arr[i]` for a possibly negative index: out-of-range gives undefined. -/
def jsGet {α : Type} (l : List α) (i : Int) : Option α :=
  if i < 0 then none else l.get? i.toNat

/-- JS `arr.slice(0, stop)`: a negative `stop` counts from the end, and the
bound is clamped to the array. -/
def jsSliceTo {α : Type} (l : List α) (stop : Int) : List α :=
  if stop < 0 then l.take (l.length - (-stop).toNat) else l.take stop.toNat

def DEFAULT_HOME_URL : String := "about:blank"

def DEFAULT_TAB_TITLE : String := "New Tab"

/-- `SESSION_STATE_VERSION` from persistence.ts. -/
def SESSION_STATE_VERSION : Int := 1

/-- `createBlankTab(id, options)` from store.tsx, with the `Date.now()` read
made explicit. -/
def createBlankTab (now : Nat) (id : String) (options : CreateTabOptions) : Tab :=
  let createdAt := now
  let url := options.url.getD DEFAULT_HOME_URL
  let isHome := url == DEFAULT_HOME_URL
  let title := options.title.getD (if isHome then DEFAULT_TAB_TITLE else url)
  let addressInput := options.addressInput.getD (if isHome then "" else url)
  { id := id
    title := title
    url := url
    addressValue := url
    addressInput := addressInput
    pageTitle := title
    pageText := ""
    chatHistory := []
    assistantOpen := false
    active := false
    status := options.status.getD TabStatus.normal
    incognito := options.incognito.getD false
    groupId := options.groupId.getD none
    history := [{ id := id ++ "-history-" ++ toString createdAt
                  url := url
                  title := title
                  timestamp := createdAt }]
    historyIndex := 0
    createdAt := createdAt
    lastActiveAt := createdAt }

/-- `toSnapshot(tab)`: drop the `active` flag. -/
def toSnapshot (tab : Tab) : TabSnapshot :=
  { id := tab.id
    title := tab.title
    url := tab.url
    addressValue := tab.addressValue
    addressInput := tab.addressInput
    pageTitle := tab.pageTitle
    pageText := tab.pageText
    chatHistory := tab.chatHistory
    assistantOpen := tab.assistantOpen
    status := tab.status
    incognito := tab.incognito
    groupId := tab.groupId
    history := tab.history
    historyIndex := tab.historyIndex
    createdAt := tab.createdAt
    lastActiveAt := tab.lastActiveAt }

/-- `{ ...entry.tab, active: <flag> } as Tab`: rebuild a `Tab` from a
snapshot plus an `active` flag. -/
def ofSnapshot (snap : TabSnapshot) (active : Bool) : Tab :=
  { id := snap.id
    title := snap.title
    url := snap.url
    addressValue := snap.addressValue
    addressInput := snap.addressInput
    pageTitle := snap.pageTitle
    pageText := snap.pageText
    chatHistory := snap.chatHistory
    assistantOpen := snap.assistantOpen
    active := active
    status := snap.status
    incognito := snap.incognito
    groupId := snap.groupId
    history := snap.history
    historyIndex := snap.historyIndex
    createdAt := snap.createdAt
    lastActiveAt := snap.lastActiveAt }

/-- `applyActiveState(tabs, activeTabId, timestamp)` from store.tsx. -/
def applyActiveState (tabs : List Tab) (activeTabId : Option String)
    (timestamp : Nat) : List Tab :=
  tabs.map fun tab =>
    if some tab.id == activeTabId then
      if tab.active then { tab with lastActiveAt := timestamp }
      else { tab with active := true, lastActiveAt := timestamp }
    else if !tab.active then tab
    else { tab with active := false }

/-- `normalizeTab(raw)` from store.tsx.  The `raw.status ?? "normal"`,
`raw.groupId ?? null` and `Array.isArray(raw.chatHistory)` guards are
identities on a type-correct tab and an absent history behaves exactly like
an empty one, so only the history/historyIndex normalization is visible
here; `raw.createdAt ?? Date.now()` always takes the stored `createdAt`. -/
def normalizeTab (raw : Tab) : Tab :=
  let history :=
    if raw.history.length > 0 then raw.history
    else [{ id := raw.id ++ "-history-" ++ toString raw.createdAt
            url := raw.url
            title := raw.title
            timestamp := raw.createdAt }]
  let historyIndex : Int :=
    if 0 ≤ raw.historyIndex ∧ raw.historyIndex < (history.length : Int) then
      raw.historyIndex
    else (history.length : Int) - 1
  { raw with history := history, historyIndex := historyIndex }

/-- `{ ...tab, ...patch }`: merge a `Partial<Tab>` into a tab (a `none`
field is an absent key, which the spread leaves untouched). -/
def applyPatch (tab : Tab) (p : TabPatch) : Tab :=
  { id := p.id.getD tab.id
    title := p.title.getD tab.title
    url := p.url.getD tab.url
    addressValue := p.addressValue.getD tab.addressValue
    addressInput := p.addressInput.getD tab.addressInput
    pageTitle := p.pageTitle.getD tab.pageTitle
    pageText := p.pageText.getD tab.pageText
    chatHistory := p.chatHistory.getD tab.chatHistory
    assistantOpen := p.assistantOpen.getD tab.assistantOpen
    active := p.active.getD tab.active
    status := p.status.getD tab.status
    incognito := p.incognito.getD tab.incognito
    groupId := p.groupId.getD tab.groupId
    history := p.history.getD tab.history
    historyIndex := p.historyIndex.getD tab.historyIndex
    createdAt := p.createdAt.getD tab.createdAt
    lastActiveAt := p.lastActiveAt.getD tab.lastActiveAt }

/-- The body of the TAB_PATCH `map` for a matching tab: compute the next
history (`patch.url && patch.url !== tab.url`, where a JS string is truthy
exactly when non-empty), spread the patch, and override `history` and
`historyIndex` with the computed values. -/
def patchOne (now : Nat) (tab : Tab) (p : TabPatch) : Tab :=
  let urlChanged : Bool :=
    match p.url with
    | some u => u != "" && u != tab.url
    | none => false
  let nextHistory :=
    if urlChanged then
      jsSliceTo tab.history (tab.historyIndex + 1) ++
        [{ id := tab.id ++ "-history-" ++ toString now
           url := p.url.getD ""
           title := ((p.title).orElse fun _ => p.pageTitle).getD tab.title
           timestamp := now }]
    else tab.history
  let nextHistoryIndex : Int :=
    if urlChanged then (nextHistory.length : Int) - 1 else tab.historyIndex
  { applyPatch tab p with history := nextHistory, historyIndex := nextHistoryIndex }

/-- Lookup in the association list modelling `Record<string, TabGroup>`. -/
def groupsFind (gs : List (String × TabGroup)) (k : String) : Option TabGroup :=
  (gs.find? fun kv => kv.1 == k).map fun kv => kv.2

/-- JS object key assignment: updating an existing key keeps its position,
a new key is appended. -/
def groupsInsert (gs : List (String × TabGroup)) (k : String) (g : TabGroup) :
    List (String × TabGroup) :=
  if (gs.find? fun kv => kv.1 == k).isSome then
    gs.map fun kv => if kv.1 == k then (k, g) else kv
  else gs ++ [(k, g)]

/-- `new Map(state.tabs.map(tab => [tab.id, tab]))` lookup: with duplicate
ids the last entry wins, hence the search over the reversed list. -/
def mapGet (tabs : List Tab) (id : String) : Option Tab :=
  tabs.reverse.find? fun t => t.id == id

/-- One step of `sessionReducer(state, action)` from store.tsx, with the
`Date.now()` reads made explicit. -/
def sessionReducer (now : Nat) (s : SessionState) (a : SessionAction) :
    Bool × SessionState :=
  match a with
  | .tabAdd tab makeActive =>
    let tabs := s.tabs.map fun t => if t.active then { t with active := false } else t
    let newTab := if makeActive then { tab with active := true, lastActiveAt := now } else tab
    (false, { s with
      tabs := tabs ++ [newTab]
      activeTabId := if makeActive then some newTab.id else s.activeTabId })
  | .tabSetActive tabId =>
    if s.activeTabId == some tabId then (true, s)
    else if !(s.tabs.any fun t => t.id == tabId) then (true, s)
    else (false, { s with
      tabs := applyActiveState s.tabs (some tabId) now
      activeTabId := some tabId })
  | .tabPatch tabId patch =>
    -- the `changed` flag is set exactly when some tab matches `tabId`
    let changed := s.tabs.any fun t => t.id == tabId
    let nextTabs := s.tabs.map fun t => if t.id == tabId then patchOne now t patch else t
    if !changed then (true, s)
    else (false, { s with tabs := nextTabs })
  | .tabSetAssistant tabId isOpen =>
    let nextTabs := s.tabs.map fun t =>
      if t.id == tabId then
        if t.assistantOpen == isOpen then t else { t with assistantOpen := isOpen }
      else t
    (false, { s with tabs := nextTabs })
  | .tabAppendChat tabId message =>
    let nextTabs := s.tabs.map fun t =>
      if t.id == tabId then { t with chatHistory := t.chatHistory ++ [message] } else t
    (false, { s with tabs := nextTabs })
  | .tabSetStatus tabId status =>
    let nextTabs := s.tabs.map fun t =>
      if t.id == tabId then
        if t.status == status then t else { t with status := status }
      else t
    (false, { s with tabs := nextTabs })
  | .tabAssignGroup tabId groupId =>
    let nextTabs := s.tabs.map fun t =>
      if t.id == tabId then { t with groupId := groupId } else t
    (false, { s with tabs := nextTabs })
  | .tabClose tabId reason =>
    if s.tabs.length ≤ 1 then (true, s)
    else
      -- `findIndex` returning -1 corresponds to `findIdx` reaching `length`
      let index := s.tabs.findIdx fun t => t.id == tabId
      if h : index < s.tabs.length then
        let removedTab := s.tabs.get ⟨index, h⟩
        let remainingTabs := s.tabs.filter fun t => !(t.id == removedTab.id)
        let nextActiveId :=
          if some removedTab.id == s.activeTabId then
            -- `remainingTabs[index - 1] ?? remainingTabs[0] ?? null`, then
            -- `fallback ? fallback.id : null`
            ((jsGet remainingTabs ((index : Int) - 1)) <|> jsGet remainingTabs 0).map
              fun fallback => fallback.id
          else s.activeTabId
        let nextTabs := applyActiveState remainingTabs nextActiveId now
        let entry : RecentlyClosedEntry :=
          { tab := toSnapshot { removedTab with active := false }
            closedAt := now
            reason := some (reason.getD CloseReason.user) }
        (false, { s with
          tabs := nextTabs
          activeTabId := nextActiveId
          recentlyClosed := (entry :: s.recentlyClosed).take 15 })
      else (true, s)
  | .tabReorder pinnedIds regularIds =>
    let collect := fun (ids : List String) => ids.filterMap (mapGet s.tabs)
    let pinnedTabs := (collect pinnedIds).map fun t =>
      if t.status == TabStatus.pinned then t else { t with status := TabStatus.pinned }
    let regularTabs := (collect regularIds).map fun t =>
      if t.status == TabStatus.pinned then { t with status := TabStatus.normal } else t
    let leftovers := s.tabs.filter fun t =>
      !(pinnedIds.contains t.id) && !(regularIds.contains t.id)
    let merged := pinnedTabs ++ regularTabs ++ leftovers
    (false, { s with tabs := applyActiveState merged s.activeTabId now })
  | .tabReopen entry =>
    match entry <|> s.recentlyClosed.head? with
    | none => (true, s)
    | some e =>
      let restoredTab := normalizeTab (ofSnapshot e.tab false)
      let mutedTabs := s.tabs.map fun t => if t.active then { t with active := false } else t
      let restoredActive := { restoredTab with active := true, lastActiveAt := now }
      (false, { s with
        tabs := mutedTabs ++ [restoredActive]
        activeTabId := some restoredActive.id
        -- JS removes the consumed entry by object identity; structural
        -- inequality coincides with it for the entries the reducer builds
        recentlyClosed := s.recentlyClosed.filter fun rc => !(rc == e) })
  | .suggestionAdd value =>
    let trimmed := value.trim
    if trimmed == "" then (true, s)
    else
      let normalized := trimmed.toLower
      let filtered := s.suggestionHistory.filter fun sug => !(sug.toLower == normalized)
      (false, { s with suggestionHistory := (trimmed :: filtered).take 24 })
  | .sessionRehydrate payload =>
    let normalizedTabs := payload.state.tabs.map normalizeTab
    let hydratedTabs := applyActiveState normalizedTabs payload.state.activeTabId now
    -- the merges over `defaultState.settings` and the per-entry
    -- `status ?? "normal"` / `groupId ?? null` guards are identities for a
    -- type-correct snapshot, whose settings and entries are complete
    let normalizedSettings := payload.state.settings
    let normalizedRecentlyClosed := payload.state.recentlyClosed
    (false, { s with
      tabs := hydratedTabs
      activeTabId := payload.state.activeTabId
      tabGroups := payload.state.tabGroups
      recentlyClosed := normalizedRecentlyClosed
      suggestionHistory := payload.state.suggestionHistory
      settings := normalizedSettings
      version := payload.state.version
      hydrated := true })
  | .sessionReady =>
    if s.hydrated then (true, s)
    else (false, { s with hydrated := true })
  | .sessionUpdateSettings payload =>
    let nextPermissionPolicy :=
      match payload.permissionPolicy with
      | some pp =>
        { camera := pp.camera.getD s.settings.permissionPolicy.camera
          microphone := pp.microphone.getD s.settings.permissionPolicy.microphone
          screen := pp.screen.getD s.settings.permissionPolicy.screen
          clipboard := pp.clipboard.getD s.settings.permissionPolicy.clipboard }
      | none => s.settings.permissionPolicy
    (false, { s with settings :=
      { confirmCloseThreshold :=
          payload.confirmCloseThreshold.getD s.settings.confirmCloseThreshold
        restoreSidebar := payload.restoreSidebar.getD s.settings.restoreSidebar
        defaultSearchEngine :=
          payload.defaultSearchEngine.getD s.settings.defaultSearchEngine
        blockAds := payload.blockAds.getD s.settings.blockAds
        blockTrackers := payload.blockTrackers.getD s.settings.blockTrackers
        blockThirdPartyCookies :=
          payload.blockThirdPartyCookies.getD s.settings.blockThirdPartyCookies
        autoHttpsUpgrade := payload.autoHttpsUpgrade.getD s.settings.autoHttpsUpgrade
        clearCookiesOnExit :=
          payload.clearCookiesOnExit.getD s.settings.clearCookiesOnExit
        sendDoNotTrack := payload.sendDoNotTrack.getD s.settings.sendDoNotTrack
        permissionPolicy := nextPermissionPolicy } })
  | .tabGroupUpsert payload =>
    let existing := groupsFind s.tabGroups payload.id
    let newGroup : TabGroup :=
      { id := payload.id
        title := payload.title
        color := payload.color <|> (existing.bind fun g => g.color)
        collapsed := some (payload.collapsed.getD
          ((existing.bind fun g => g.collapsed).getD false)) }
    (false, { s with tabGroups := groupsInsert s.tabGroups payload.id newGroup })
  | .tabGroupDelete groupId =>
    let nextTabs := s.tabs.map fun t =>
      if t.groupId == some groupId then { t with groupId := none } else t
    (false, { s with
      tabGroups := s.tabGroups.filter fun kv => !(kv.1 == groupId)
      tabs := nextTabs })
  | .tabGroupToggleCollapse groupId =>
    match groupsFind s.tabGroups groupId with
    | none => (true, s)
    | some group =>
      let toggled := { group with collapsed := some (!(group.collapsed.getD false)) }
      (false, { s with tabGroups := groupsInsert s.tabGroups groupId toggled })
  | .tabCloseAll newTab =>
    (false, { s with tabs := [newTab], activeTabId := some newTab.id })

/-- The state after one reducer step. -/
def step (now : Nat) (s : SessionState) (a : SessionAction) : SessionState :=
  (sessionReducer now s a).2

/-- Whether the reducer step returned the identical prior state reference. -/
def stepSameRef (now : Nat) (s : SessionState) (a : SessionAction) : Bool :=
  (sessionReducer now s a).1

/-- `saveSessionSnapshot` from persistence.ts: the snapshot value that gets
serialized (the transport — bridge or localStorage — is external I/O). -/
def saveSessionSnapshot (now : Nat) (s : SessionState) : SessionSnapshot :=
  { version := SESSION_STATE_VERSION
    savedAt := now
    state :=
      { tabs := s.tabs
        activeTabId := s.activeTabId
        tabGroups := s.tabGroups
        recentlyClosed := s.recentlyClosed
        suggestionHistory := s.suggestionHistory
        settings := s.settings
        version := s.version } }

/-- The possible outcomes of reading and `JSON.parse`-ing the stored blob:
parsing throws, parses to a non-object (including null), or parses to an
object, read as a `SessionSnapshot` (a missing or non-numeric `version`
field behaves exactly like a wrong number). -/
inductive StoredBlob where
  | unparsable
  | nonObject
  | snapshot (snap : SessionSnapshot)
deriving DecidableEq, Repr

/-- `loadSessionSnapshot` from persistence.ts as a function of the stored
blob (`none` = no stored string).  The try/catch swallows every failure into
`null`, so the result type is `Option`, never an error. -/
def loadSessionSnapshot (raw : Option StoredBlob) : Option SessionSnapshot :=
  match raw with
  | none => none
  | some .unparsable => none
  | some .nonObject => none
  | some (.snapshot parsed) =>
    if parsed.version == SESSION_STATE_VERSION then some parsed else none

/-- `defaultState.settings` from store.tsx. -/
def defaultSettings : SessionSettings :=
  { confirmCloseThreshold := 12
    restoreSidebar := true
    defaultSearchEngine := "google"
    blockAds := true
    blockTrackers := true
    blockThirdPartyCookies := true
    autoHttpsUpgrade := true
    clearCookiesOnExit := false
    sendDoNotTrack := true
    permissionPolicy :=
      { camera := PermissionPolicy.ask
        microphone := PermissionPolicy.ask
        screen := PermissionPolicy.ask
        clipboard := PermissionPolicy.ask } }

/-- `defaultTab` from store.tsx: a blank tab mutated to be titled and active. -/
def defaultTab (now : Nat) : Tab :=
  { createBlankTab now "tab-1" {} with
      title := DEFAULT_TAB_TITLE
      pageTitle := DEFAULT_TAB_TITLE
      active := true }

/-- `defaultState` from store.tsx. -/
def defaultState (now : Nat) : SessionState :=
  { tabs := [defaultTab now]
    activeTabId := some (defaultTab now).id
    tabGroups := []
    recentlyClosed := []
    suggestionHistory := []
    settings := defaultSettings
    version := SESSION_STATE_VERSION
    hydrated := false }

/-! ### Invariants and side conditions -/

/-- The ids of a tab list, in order. -/
def idsOf (tabs : List Tab) : List String := tabs.map fun t => t.id

/-- The active-tab invariant of the spec: whenever `activeTabId` is non-null,
exactly one tab has `active = true` and that tab's id equals `activeTabId`. -/
def activeInvB (s : SessionState) : Bool :=
  match s.activeTabId with
  | none => true
  | some aid =>
    ((s.tabs.countP fun t => t.active) == 1) && (s.tabs.all fun t => !t.active || t.id == aid)

/-- The per-tab history bounds of the spec:
`history.length ≥ 1` and `0 ≤ historyIndex < history.length`. -/
def tabBoundsB (t : Tab) : Bool :=
  decide (1 ≤ t.history.length) && decide (0 ≤ t.historyIndex) &&
    decide (t.historyIndex < (t.history.length : Int))

/-- All tabs of the state satisfy the history bounds. -/
def historyInvB (s : SessionState) : Bool := s.tabs.all tabBoundsB

/-- Tab ids are pairwise distinct (the spec's id-uniqueness invariant). -/
def TabIdsNodup (s : SessionState) : Prop := (idsOf s.tabs).Nodup

instance (s : SessionState) : Decidable (TabIdsNodup s) := by
  unfold TabIdsNodup
  infer_instance

/-- Side conditions under which a reducer transition preserves the
active-tab invariant; they hold for every action the facade dispatches:
`addTab` always passes `makeActive: true`, UI patches do not touch `active`
or `id`, close-all builds an active fresh tab, the drag-reorder id lists are
duplicate-free, and a snapshot saved by the engine names an existing,
unique active tab. -/
def activeOkAction (a : SessionAction) : Bool :=
  match a with
  | .tabAdd _ makeActive => makeActive
  | .tabPatch _ p => p.active.isNone && p.id.isNone
  | .tabReorder pinnedIds regularIds => decide ((pinnedIds ++ regularIds).Nodup)
  | .sessionRehydrate payload =>
    match payload.state.activeTabId with
    | none => true
    | some aid => (payload.state.tabs.countP fun t => t.id == aid) == 1
  | .tabCloseAll newTab => newTab.active
  | _ => true

/-- Side conditions under which a reducer transition preserves the history
bounds: the tabs injected verbatim by an action must themselves satisfy
them (tabs built by `createBlankTab`, as the facade does, always do). -/
def historyOkAction (a : SessionAction) : Bool :=
  match a with
  | .tabAdd tab _ => tabBoundsB tab
  | .tabCloseAll newTab => tabBoundsB newTab
  | _ => true

/-! ### Concrete fixtures used by witnesses and counterexamples -/

/-- A fresh blank tab with the given id, created at time 0. -/
def blankTab (id : String) : Tab := createBlankTab 0 id {}

/-- Three tabs `t1, t2, t3` with `t2` active. -/
def threeTabState : SessionState :=
  { defaultState 0 with
      tabs := [blankTab "t1", { blankTab "t2" with active := true }, blankTab "t3"]
      activeTabId := some "t2" }

/-- Two tabs `t1, t2` with `t1` active. -/
def twoTabState : SessionState :=
  { defaultState 0 with
      tabs := [{ blankTab "t1" with active := true }, blankTab "t2"]
      activeTabId := some "t1" }

/-- A persisted-state fixture carrying a foreign schema version. -/
def foreignPersisted : PersistedState :=
  { tabs := []
    activeTabId := none
    tabGroups := []
    recentlyClosed := []
    suggestionHistory := []
    settings := defaultSettings
    version := 2 }

/-- A snapshot whose version is 2, not the current schema constant. -/
def foreignSnapshot : SessionSnapshot :=
  { version := 2, savedAt := 0, state := foreignPersisted }

/-! ### Helper lemmas -/

theorem jsGet_mem {α : Type} {l : List α} {i : Int} {x : α}
    (h : jsGet l i = some x) : x ∈ l := by
  unfold jsGet at h
  split at h
  · exact absurd h (by simp)
  · exact List.get?_mem h

theorem mapGet_some_id {tabs : List Tab} {i : String} {t : Tab}
    (h : mapGet tabs i = some t) : t.id = i := by
  have := List.find?_some h
  simpa using this

theorem mapGet_mem {tabs : List Tab} {i : String} {t : Tab}
    (h : mapGet tabs i = some t) : t ∈ tabs := by
  have := List.mem_of_find?_eq_some h
  simpa using this

theorem mapGet_eq_none_iff {tabs : List Tab} {i : String} :
    mapGet tabs i = none ↔ i ∉ idsOf tabs := by
  unfold mapGet idsOf
  rw [List.find?_eq_none]
  constructor
  · intro h hm
    rw [List.mem_map] at hm
    obtain ⟨t, ht, rfl⟩ := hm
    exact h t (by simpa using ht) (by simp)
  · intro h t ht hbeq
    exact h (List.mem_map.mpr ⟨t, by simpa using ht, by simpa using hbeq⟩)

theorem idsOf_applyActiveState (tabs : List Tab) (aid : Option String) (ts : Nat) :
    idsOf (applyActiveState tabs aid ts) = idsOf tabs := by
  unfold idsOf applyActiveState
  rw [List.map_map]
  apply List.map_congr_left
  intro t _
  simp only [Function.comp_apply]
  split
  · split <;> rfl
  · split <;> rfl

theorem countP_active_applyActiveState (tabs : List Tab) (aid : Option String) (ts : Nat) :
    ((applyActiveState tabs aid ts).countP fun t => t.active) =
      tabs.countP fun t => some t.id == aid := by
  unfold applyActiveState
  rw [List.countP_map]
  apply List.countP_congr
  intro t _
  simp only [Function.comp_apply]
  by_cases h : (some t.id == aid) = true
  · cases ht : t.active <;> simp [h, ht]
  · cases ht : t.active <;> simp [h, ht]

theorem mem_applyActiveState_active (tabs : List Tab) (aid : Option String) (ts : Nat) :
    ∀ t ∈ applyActiveState tabs aid ts, t.active = true → some t.id = aid := by
  intro t' ht' hact
  unfold applyActiveState at ht'
  rw [List.mem_map] at ht'
  obtain ⟨t, ht, rfl⟩ := ht'
  by_cases h : (some t.id == aid) = true
  · have hid : some t.id = aid := by simpa using h
    simp only [h, if_true]
    split <;> exact hid
  · cases ht' : t.active <;> simp [h, ht'] at hact

theorem countP_active_deactivated (tabs : List Tab) :
    (((tabs.map fun t => if t.active then { t with active := false } else t)).countP
      fun t => t.active) = 0 := by
  rw [List.countP_map, List.countP_eq_zero]
  intro t _
  simp only [Function.comp_apply]
  split <;> simp_all

theorem countP_active_map_pres (tabs : List Tab) (f : Tab → Tab)
    (h : ∀ t ∈ tabs, (f t).active = t.active) :
    ((tabs.map f).countP fun t => t.active) = tabs.countP fun t => t.active := by
  rw [List.countP_map]
  apply List.countP_congr
  intro t ht
  simp [Function.comp_apply, h t ht]

theorem all_active_id_map_pres (tabs : List Tab) (f : Tab → Tab) (aid : String)
    (hact : ∀ t ∈ tabs, (f t).active = t.active)
    (hid : ∀ t ∈ tabs, (f t).id = t.id)
    (h : ∀ t ∈ tabs, t.active = true → t.id = aid) :
    ∀ t ∈ tabs.map f, t.active = true → t.id = aid := by
  intro t' ht' ha
  rw [List.mem_map] at ht'
  obtain ⟨t, ht, rfl⟩ := ht'
  rw [hid t ht]
  exact h t ht ((hact t ht) ▸ ha)

theorem all_map_pres {α : Type} (l : List α) (f : α → α) (p : α → Bool)
    (h : ∀ t ∈ l, p (f t) = p t) : (l.map f).all p = l.all p := by
  induction l with
  | nil => rfl
  | cons a l ih =>
    simp only [List.map_cons, List.all_cons, h a (List.mem_cons_self a l),
      ih fun t ht => h t (List.mem_cons_of_mem a ht)]

theorem activeInvB_iff (s : SessionState) :
    activeInvB s = true ↔
      ∀ aid, s.activeTabId = some aid →
        (s.tabs.countP fun t => t.active) = 1 ∧
          ∀ t ∈ s.tabs, t.active = true → t.id = aid := by
  cases h : s.activeTabId with
  | none => simp [activeInvB, h]
  | some aid =>
    unfold activeInvB
    rw [h]
    constructor
    · intro hb a ha
      rw [Option.some.injEq] at ha
      subst ha
      rw [Bool.and_eq_true] at hb
      refine ⟨by simpa using hb.1, ?_⟩
      intro t ht hact
      have := (List.all_eq_true.mp hb.2) t ht
      rw [hact] at this
      simpa using this
    · intro hp
      obtain ⟨hc, ha⟩ := hp aid rfl
      rw [Bool.and_eq_true]
      refine ⟨by simpa using hc, ?_⟩
      rw [List.all_eq_true]
      intro t ht
      cases hact : t.active with
      | false => simp
      | true => simp [ha t ht hact]

theorem countP_id_eq_count (tabs : List Tab) (x : String) :
    (tabs.countP fun t => t.id == x) = (idsOf tabs).count x := by
  unfold idsOf
  rw [List.count, List.countP_map]
  rfl

theorem normalizeTab_id (raw : Tab) : (normalizeTab raw).id = raw.id := rfl

theorem normalizeTab_bounds (raw : Tab) : tabBoundsB (normalizeTab raw) = true := by
  unfold normalizeTab tabBoundsB
  simp only [Bool.and_eq_true, decide_eq_true_eq]
  split_ifs with h1 h2 h3 <;> simp_all <;> omega

theorem normalizeTab_eq_self {t : Tab} (h : tabBoundsB t = true) : normalizeTab t = t := by
  unfold tabBoundsB at h
  simp only [Bool.and_eq_true, decide_eq_true_eq] at h
  obtain ⟨⟨h1, h2⟩, h3⟩ := h
  simp only [normalizeTab]
  rw [if_pos (by omega : t.history.length > 0)]
  rw [if_pos (show 0 ≤ t.historyIndex ∧ t.historyIndex < (t.history.length : Int) from ⟨h2, h3⟩)]

theorem patchOne_active {p : TabPatch} (h : p.active = none) (now : Nat) (t : Tab) :
    (patchOne now t p).active = t.active := by
  simp [patchOne, applyPatch, h]

theorem patchOne_id {p : TabPatch} (h : p.id = none) (now : Nat) (t : Tab) :
    (patchOne now t p).id = t.id := by
  simp [patchOne, applyPatch, h]

theorem jsSliceTo_nonneg {α : Type} (l : List α) (i : Int) (h : 0 ≤ i) :
    jsSliceTo l i = l.take i.toNat := by
  unfold jsSliceTo
  rw [if_neg (by omega)]

theorem tabBoundsB_patchOne {t : Tab} (h : tabBoundsB t = true) (now : Nat) (p : TabPatch) :
    tabBoundsB (patchOne now t p) = true := by
  unfold tabBoundsB at h ⊢
  simp only [Bool.and_eq_true, decide_eq_true_eq] at h ⊢
  obtain ⟨⟨h1, h2⟩, h3⟩ := h
  simp only [patchOne]
  split_ifs with hc
  · simp only [List.length_append, List.length_cons, List.length_nil]
    refine ⟨⟨by omega, by omega⟩, by omega⟩
  · exact ⟨⟨h1, h2⟩, h3⟩

theorem idsOf_map_id_pres (l : List Tab) (f : Tab → Tab)
    (h : ∀ t ∈ l, (f t).id = t.id) : idsOf (l.map f) = idsOf l := by
  simp only [idsOf, List.map_map]
  exact List.map_congr_left fun t ht => by simp [Function.comp_apply, h t ht]

theorem idsOf_filterMap_mapGet (tabs : List Tab) (L : List String) :
    idsOf (L.filterMap (mapGet tabs)) = L.filter fun i => decide (i ∈ idsOf tabs) := by
  induction L with
  | nil => rfl
  | cons i L ih =>
    rw [List.filterMap_cons]
    cases h : mapGet tabs i with
    | none =>
      have hm : i ∉ idsOf tabs := mapGet_eq_none_iff.mp h
      rw [List.filter_cons_of_neg (by simpa using hm)]
      exact ih
    | some t =>
      have hm : i ∈ idsOf tabs := by
        rw [← mapGet_some_id h]
        exact List.mem_map.mpr ⟨t, mapGet_mem h, rfl⟩
      rw [List.filter_cons_of_pos (by simpa using hm)]
      simp only [idsOf] at ih ⊢
      rw [List.map_cons, mapGet_some_id h, ih]

theorem idsOf_filter_on_id (tabs : List Tab) (q : String → Bool) :
    idsOf (tabs.filter fun t => q t.id) = (idsOf tabs).filter q := by
  simp only [idsOf]
  rw [List.filter_map]
  rfl

theorem reorder_ids_perm (ids L1 L2 : List String) (hids : ids.Nodup)
    (hL : (L1 ++ L2).Nodup) :
    List.Perm
      (L1.filter (fun i => decide (i ∈ ids)) ++ L2.filter (fun i => decide (i ∈ ids)) ++
        ids.filter fun i => !(L1.contains i) && !(L2.contains i))
      ids := by
  rw [List.perm_iff_count]
  intro x
  rw [List.count_append, List.count_append]
  rw [List.nodup_append] at hL
  obtain ⟨h1, h2, hdisj⟩ := hL
  by_cases hx : x ∈ ids
  · rw [List.count_eq_one_of_mem hids hx]
    by_cases hx1 : x ∈ L1
    · have hx2 : x ∉ L2 := fun h => hdisj hx1 h
      rw [List.count_filter (by simpa using hx)]
      rw [List.count_eq_one_of_mem h1 hx1]
      rw [List.count_eq_zero_of_not_mem
        (fun h => hx2 (List.mem_of_mem_filter h))]
      rw [List.count_eq_zero_of_not_mem (l := ids.filter
        fun i => !(L1.contains i) && !(L2.contains i)) ?_]
      · intro h
        have hp := List.of_mem_filter h
        simp only [List.contains, Bool.and_eq_true, Bool.not_eq_true',
          List.elem_eq_mem, decide_eq_false_iff_not] at hp
        exact hp.1 hx1
    · by_cases hx2 : x ∈ L2
      · rw [List.count_eq_zero_of_not_mem
          (fun h => hx1 (List.mem_of_mem_filter h))]
        rw [List.count_filter (by simpa using hx)]
        rw [List.count_eq_one_of_mem h2 hx2]
        rw [List.count_eq_zero_of_not_mem (l := ids.filter
          fun i => !(L1.contains i) && !(L2.contains i)) ?_]
        · intro h
          have hp := List.of_mem_filter h
          simp only [List.contains, Bool.and_eq_true, Bool.not_eq_true',
            List.elem_eq_mem, decide_eq_false_iff_not] at hp
          exact hp.2 hx2
      · rw [List.count_eq_zero_of_not_mem
          (fun h => hx1 (List.mem_of_mem_filter h))]
        rw [List.count_eq_zero_of_not_mem
          (fun h => hx2 (List.mem_of_mem_filter h))]
        rw [List.count_filter (by
          simp only [List.contains, Bool.and_eq_true, Bool.not_eq_true',
            List.elem_eq_mem, decide_eq_false_iff_not]
          exact ⟨hx1, hx2⟩)]
        rw [List.count_eq_one_of_mem hids hx]
  · rw [List.count_eq_zero_of_not_mem hx]
    rw [List.count_eq_zero_of_not_mem
      (fun h => hx (by simpa using List.of_mem_filter h))]
    rw [List.count_eq_zero_of_not_mem
      (fun h => hx (by simpa using List.of_mem_filter h))]
    rw [List.count_eq_zero_of_not_mem
      (fun h => hx (List.mem_of_mem_filter h))]

theorem orElse_eq_some_cases {α : Type} (a b : Option α) (x : α)
    (h : (a <|> b) = some x) : a = some x ∨ b = some x := by
  cases a with
  | none => right; simpa using h
  | some v => left; simpa using h

theorem reorder_merged_perm (s : SessionState) (pin reg : List String)
    (hids : TabIdsNodup s) (hnd : (pin ++ reg).Nodup) :
    List.Perm
      (idsOf
        (((pin.filterMap (mapGet s.tabs)).map fun t =>
            if t.status == TabStatus.pinned then t
            else { t with status := TabStatus.pinned }) ++
          ((reg.filterMap (mapGet s.tabs)).map fun t =>
            if t.status == TabStatus.pinned then { t with status := TabStatus.normal }
            else t) ++
          s.tabs.filter fun t => !(pin.contains t.id) && !(reg.contains t.id)))
      (idsOf s.tabs) := by
  rw [show ∀ A B C : List Tab, idsOf (A ++ B ++ C) = idsOf A ++ idsOf B ++ idsOf C from
    fun A B C => by simp [idsOf]]
  rw [idsOf_map_id_pres _ _ (fun t _ => by split <;> rfl)]
  rw [idsOf_map_id_pres _ _ (fun t _ => by split <;> rfl)]
  rw [idsOf_filterMap_mapGet, idsOf_filterMap_mapGet]
  rw [idsOf_filter_on_id s.tabs (fun i => !(pin.contains i) && !(reg.contains i))]
  exact reorder_ids_perm (idsOf s.tabs) pin reg hids hnd

/-! ### Theorems -/

/-- C7: `loadSessionSnapshot` accepts a stored snapshot exactly when its
parsed `version` equals the schema constant `SESSION_STATE_VERSION = 1`;
an absent, unparsable, or non-object blob and every version mismatch yield
`null` (the function is total into `Option`, so no error reaches the
caller). -/
theorem loadSessionSnapshot_version_gate :
    SESSION_STATE_VERSION = 1 ∧
    (∀ raw snap, loadSessionSnapshot raw = some snap →
      raw = some (StoredBlob.snapshot snap) ∧ snap.version = 1) ∧
    loadSessionSnapshot none = none ∧
    loadSessionSnapshot (some StoredBlob.unparsable) = none ∧
    loadSessionSnapshot (some StoredBlob.nonObject) = none ∧
    (∀ snap, snap.version ≠ 1 →
      loadSessionSnapshot (some (StoredBlob.snapshot snap)) = none) ∧
    (∀ snap, snap.version = 1 →
      loadSessionSnapshot (some (StoredBlob.snapshot snap)) = some snap) := by
  refine ⟨rfl, ?_, rfl, rfl, rfl, ?_, ?_⟩
  · intro raw snap h
    match raw with
    | none => simp [loadSessionSnapshot] at h
    | some .unparsable => simp [loadSessionSnapshot] at h
    | some .nonObject => simp [loadSessionSnapshot] at h
    | some (.snapshot parsed) =>
      by_cases hv : parsed.version == SESSION_STATE_VERSION
      · simp [loadSessionSnapshot, hv] at h
        subst h
        exact ⟨rfl, by simpa [SESSION_STATE_VERSION] using hv⟩
      · simp [loadSessionSnapshot, hv] at h
  · intro snap hv
    have : (snap.version == SESSION_STATE_VERSION) = false := by
      simpa [SESSION_STATE_VERSION] using hv
    simp [loadSessionSnapshot, this]
  · intro snap hv
    simp [loadSessionSnapshot, SESSION_STATE_VERSION, hv]

/-- Witness for C7 at concrete inputs: a version-2 snapshot is discarded. -/
theorem loadSessionSnapshot_version_gate_witness :
    foreignSnapshot.version ≠ 1 ∧
    loadSessionSnapshot (some (StoredBlob.snapshot foreignSnapshot)) = none :=
  ⟨by decide,
    loadSessionSnapshot_version_gate.2.2.2.2.2.1 foreignSnapshot (by decide)⟩

/-- C6: TAB_CLOSE is refused — the identical prior state is returned, with
no tab removed and no recently-closed entry pushed — whenever only one tab
remains, and likewise whenever the id matches no tab. -/
theorem tabClose_refusal (now : Nat) (s : SessionState) (tabId : String)
    (reason : Option CloseReason) :
    (s.tabs.length = 1 →
      sessionReducer now s (SessionAction.tabClose tabId reason) = (true, s)) ∧
    ((∀ t ∈ s.tabs, t.id ≠ tabId) →
      sessionReducer now s (SessionAction.tabClose tabId reason) = (true, s)) := by
  constructor
  · intro h
    simp [sessionReducer, h]
  · intro h
    by_cases hl : s.tabs.length ≤ 1
    · simp [sessionReducer, hl]
    · have hidx : (s.tabs.findIdx fun t => t.id == tabId) = s.tabs.length :=
        List.findIdx_eq_length.mpr fun x hx => by
          simpa using h x hx
      simp only [sessionReducer, if_neg hl]
      rw [dif_neg]
      omega


/-- Witness for C6: closing the single default tab is refused. -/
theorem tabClose_refusal_witness :
    (defaultState 0).tabs.length = 1 ∧
    sessionReducer 2 (defaultState 0) (SessionAction.tabClose "tab-1" none) =
      (true, defaultState 0) :=
  ⟨by decide, (tabClose_refusal 2 (defaultState 0) "tab-1" none).1 (by decide)⟩

/-- C9: the result of TAB_PATCH is independent of the `history` and
`historyIndex` fields of the patch — the reducer always overrides both with
its own computed values, so a caller cannot move within or rewrite a tab's
navigation history directly through PatchTab. -/
theorem tabPatch_overrides_history_fields (now : Nat) (s : SessionState)
    (tabId : String) (p : TabPatch) (h : Option (List TabHistoryEntry))
    (hi : Option Int) :
    sessionReducer now s
        (SessionAction.tabPatch tabId { p with history := h, historyIndex := hi }) =
      sessionReducer now s
        (SessionAction.tabPatch tabId { p with history := none, historyIndex := none }) :=
  rfl

/-- C2 evidence: a SetAssistantOpen whose value equals the tab's current
value returns a fresh, merely structurally equal state (`sameRef = false`),
not the identical prior reference the spec requires. -/
theorem tabSetAssistant_noop_returns_fresh_copy :
    stepSameRef 3 (defaultState 0) (SessionAction.tabSetAssistant "tab-1" false) = false ∧
    step 3 (defaultState 0) (SessionAction.tabSetAssistant "tab-1" false) = defaultState 0 := by
  constructor <;> decide

/-- C1 counterexample: TAB_ADD with `makeActive = false` deactivates every
existing tab but leaves `activeTabId` pointing at the now-inactive tab, so
this transition does not preserve the active-tab invariant. -/
theorem tabAdd_inactive_breaks_activeInv :
    activeInvB (defaultState 0) = true ∧
    activeOkAction (SessionAction.tabAdd (createBlankTab 5 "tab-2" {}) false) = false ∧
    activeInvB
      (step 5 (defaultState 0) (SessionAction.tabAdd (createBlankTab 5 "tab-2" {}) false)) =
      false := by
  refine ⟨by decide, by decide, by decide⟩

/-- C3 counterexample: closing active `t2` out of `[t1, t2, t3]` activates
`t1` — the tab before the removed index — while the tab occupying the
removed index (1) in the remaining array is `t3`. -/
theorem tabClose_previous_tab_counterexample :
    (step 9 threeTabState (SessionAction.tabClose "t2" none)).activeTabId = some "t1" ∧
    ((threeTabState.tabs.filter fun t => !(t.id == "t2")).get? 1).map Tab.id = some "t3" ∧
    (step 9 threeTabState (SessionAction.tabClose "t2" none)).activeTabId ≠
      ((threeTabState.tabs.filter fun t => !(t.id == "t2")).get? 1).map Tab.id := by
  refine ⟨by decide, by decide, by decide⟩

/-- C4 counterexample: a patch whose `url` is set to the empty string — set
and different from the tab's current url — does not truncate-and-append:
`patch.url &&` is falsy on `""`, so history and historyIndex are unchanged. -/
theorem tabPatch_empty_url_counterexample :
    "" ≠ (defaultTab 0).url ∧
    (step 7 (defaultState 0)
        (SessionAction.tabPatch "tab-1" { url := some "" })).tabs.map (fun t => t.history) =
      [(defaultTab 0).history] ∧
    (defaultTab 0).history.length = 1 ∧
    (step 7 (defaultState 0)
        (SessionAction.tabPatch "tab-1" { url := some "" })).tabs.map
        (fun t => t.historyIndex) = [0] := by
  refine ⟨by decide, by decide, by decide, by decide⟩

/-- C5 counterexample: rehydrating the snapshot of the default state at a
later clock reading flips `hydrated`, but it also bumps the active tab's
`lastActiveAt` to the rehydration time, so the tabs are not reproduced
unchanged. -/
theorem rehydrate_bumps_lastActiveAt_counterexample :
    (defaultState 0).hydrated = false ∧
    (step 200 (defaultState 0)
        (SessionAction.sessionRehydrate (saveSessionSnapshot 100 (defaultState 0)))).hydrated =
      true ∧
    (step 200 (defaultState 0)
        (SessionAction.sessionRehydrate (saveSessionSnapshot 100 (defaultState 0)))).tabs ≠
      (defaultState 0).tabs ∧
    (step 200 (defaultState 0)
        (SessionAction.sessionRehydrate (saveSessionSnapshot 100 (defaultState 0)))).tabs.map
        (fun t => t.lastActiveAt) = [200] ∧
    (defaultState 0).tabs.map (fun t => t.lastActiveAt) = [0] := by
  refine ⟨by decide, by decide, by decide, by decide, by decide⟩

/-- C10 counterexample: the two id lists `["t1", "t1"]` and `[]` are
disjoint, yet TAB_REORDER duplicates tab `t1`: the result holds the prior
tabs' ids `["t1", "t1", "t2"]` and its length grew. -/
theorem tabReorder_duplicate_listed_id_counterexample :
    (∀ a ∈ (["t1", "t1"] : List String), a ∉ ([] : List String)) ∧
    (step 0 twoTabState (SessionAction.tabReorder ["t1", "t1"] [])).tabs.map
        (fun t => t.id) = ["t1", "t1", "t2"] ∧
    (step 0 twoTabState (SessionAction.tabReorder ["t1", "t1"] [])).tabs.length ≠
      twoTabState.tabs.length := by
  refine ⟨by simp, by decide, by decide⟩

/-- C10 (amended): provided the state's tab ids are pairwise distinct and the
two id lists are duplicate-free, TAB_REORDER produces exactly the prior tabs:
listed ids (those matching an existing tab) in list order, followed by the
unlisted tabs in their prior relative order; the id multiset is a permutation
of the prior one and the length is unchanged. -/
theorem tabReorder_no_loss (now : Nat) (s : SessionState)
    (pinnedIds regularIds : List String)
    (hids : TabIdsNodup s) (hnd : (pinnedIds ++ regularIds).Nodup) :
    idsOf (step now s (SessionAction.tabReorder pinnedIds regularIds)).tabs =
      pinnedIds.filter (fun i => decide (i ∈ idsOf s.tabs)) ++
        regularIds.filter (fun i => decide (i ∈ idsOf s.tabs)) ++
        (idsOf s.tabs).filter
          (fun i => !(pinnedIds.contains i) && !(regularIds.contains i)) ∧
    List.Perm (idsOf (step now s (SessionAction.tabReorder pinnedIds regularIds)).tabs)
      (idsOf s.tabs) ∧
    (step now s (SessionAction.tabReorder pinnedIds regularIds)).tabs.length =
      s.tabs.length := by
  have hids_eq : idsOf (step now s (SessionAction.tabReorder pinnedIds regularIds)).tabs =
      pinnedIds.filter (fun i => decide (i ∈ idsOf s.tabs)) ++
        regularIds.filter (fun i => decide (i ∈ idsOf s.tabs)) ++
        (idsOf s.tabs).filter
          (fun i => !(pinnedIds.contains i) && !(regularIds.contains i)) := by
    show idsOf (applyActiveState _ s.activeTabId now) = _
    rw [idsOf_applyActiveState]
    rw [show ∀ A B C : List Tab, idsOf (A ++ B ++ C) = idsOf A ++ idsOf B ++ idsOf C from
      fun A B C => by simp [idsOf]]
    rw [idsOf_map_id_pres _ _ (fun t _ => by split <;> rfl)]
    rw [idsOf_map_id_pres _ _ (fun t _ => by split <;> rfl)]
    rw [idsOf_filterMap_mapGet, idsOf_filterMap_mapGet]
    rw [idsOf_filter_on_id s.tabs
      (fun i => !(pinnedIds.contains i) && !(regularIds.contains i))]
  have hperm : List.Perm
      (idsOf (step now s (SessionAction.tabReorder pinnedIds regularIds)).tabs)
      (idsOf s.tabs) := by
    rw [hids_eq]
    exact reorder_ids_perm (idsOf s.tabs) pinnedIds regularIds hids hnd
  refine ⟨hids_eq, hperm, ?_⟩
  have := hperm.length_eq
  simpa [idsOf] using this

/-- Witness for C10 at a concrete input: reordering `[t2] / [t1]` keeps the
same two tabs. -/
theorem tabReorder_no_loss_witness :
    (TabIdsNodup twoTabState ∧ ((["t2"] : List String) ++ ["t1"]).Nodup) ∧
    List.Perm (idsOf (step 4 twoTabState (SessionAction.tabReorder ["t2"] ["t1"])).tabs)
      (idsOf twoTabState.tabs) :=
  ⟨⟨by decide, by decide⟩,
    (tabReorder_no_loss 4 twoTabState ["t2"] ["t1"] (by decide) (by decide)).2.1⟩

/-- C3 (amended): with at least two tabs and a present id, TAB_CLOSE removes
the tab with that id and pushes it onto recentlyClosed; when the removed tab
was the active one, the new activeTabId is the id of the tab *preceding* the
removed tab in the prior order (`remainingTabs[index - 1]`), else the first
remaining tab's id, else null. -/
theorem tabClose_removes_and_activates_previous (now : Nat) (s : SessionState)
    (tabId : String) (reason : Option CloseReason)
    (hlen : 2 ≤ s.tabs.length)
    (hex : ∃ t ∈ s.tabs, t.id = tabId) :
    idsOf (step now s (SessionAction.tabClose tabId reason)).tabs =
      idsOf (s.tabs.filter fun t => !(t.id == tabId)) ∧
    (step now s (SessionAction.tabClose tabId reason)).activeTabId =
      (if s.activeTabId = some tabId then
        ((jsGet (s.tabs.filter fun t => !(t.id == tabId))
            (((s.tabs.findIdx fun t => t.id == tabId) : Int) - 1) <|>
          jsGet (s.tabs.filter fun t => !(t.id == tabId)) 0).map fun t => t.id)
      else s.activeTabId) ∧
    ((step now s (SessionAction.tabClose tabId reason)).recentlyClosed.head?.map
      fun e => e.tab.id) = some tabId := by
  have hp : ∃ t ∈ s.tabs, (fun t : Tab => t.id == tabId) t := by
    obtain ⟨t, ht, hid⟩ := hex
    exact ⟨t, ht, by simpa using hid⟩
  have hidx : (s.tabs.findIdx fun t => t.id == tabId) < s.tabs.length :=
    List.findIdx_lt_length_of_exists hp
  have hremid : (s.tabs.get ⟨s.tabs.findIdx fun t => t.id == tabId, hidx⟩).id = tabId := by
    have := List.findIdx_getElem (w := hidx)
    simpa using this
  simp only [step, sessionReducer]
  rw [if_neg (by omega : ¬ s.tabs.length ≤ 1), dif_pos hidx, hremid]
  refine ⟨by rw [idsOf_applyActiveState], ?_, ?_⟩
  · by_cases hA : s.activeTabId = some tabId
    · rw [if_pos (by simp [hA] : (some tabId == s.activeTabId) = true), if_pos hA]
    · have hb : ¬ (some tabId == s.activeTabId) = true := by
        intro hb
        exact hA (Eq.symm (by simpa using hb))
      rw [if_neg hb, if_neg hA]
  · rfl

/-- Witness for C3: closing the active middle tab of three. -/
theorem tabClose_removes_and_activates_previous_witness :
    (2 ≤ threeTabState.tabs.length ∧ ∃ t ∈ threeTabState.tabs, t.id = "t2") ∧
    ((step 9 threeTabState (SessionAction.tabClose "t2" none)).recentlyClosed.head?.map
      fun e => e.tab.id) = some "t2" :=
  ⟨⟨by decide, by decide⟩,
    (tabClose_removes_and_activates_previous 9 threeTabState "t2" none
      (by decide) (by decide)).2.2⟩

/-- C4 (amended): for a tab present in the state whose historyIndex is in
bounds, a patch whose `url` is set to a *non-empty* string different from the
current url truncates the history after the current index and appends one new
entry for the patched url, setting historyIndex to the new tail; when the
patch's url is absent, empty, or equal to the current url, history and
historyIndex are unchanged. -/
theorem tabPatch_url_history (now : Nat) (s : SessionState) (tabId : String)
    (p : TabPatch) (tab : Tab)
    (hmem : tab ∈ s.tabs) (hid : tab.id = tabId)
    (h0 : 0 ≤ tab.historyIndex) (h1 : tab.historyIndex < (tab.history.length : Int)) :
    (step now s (SessionAction.tabPatch tabId p)).tabs =
      (s.tabs.map fun t => if t.id == tabId then patchOne now t p else t) ∧
    (∀ u, p.url = some u → u ≠ "" → u ≠ tab.url →
      (patchOne now tab p).history =
        tab.history.take (tab.historyIndex.toNat + 1) ++
          [{ id := tab.id ++ "-history-" ++ toString now
             url := u
             title := ((p.title).orElse fun _ => p.pageTitle).getD tab.title
             timestamp := now }] ∧
      (patchOne now tab p).historyIndex = ((patchOne now tab p).history.length : Int) - 1 ∧
      (patchOne now tab p).historyIndex = tab.historyIndex + 1) ∧
    ((p.url = none ∨ p.url = some "" ∨ p.url = some tab.url) →
      (patchOne now tab p).history = tab.history ∧
      (patchOne now tab p).historyIndex = tab.historyIndex) := by
  refine ⟨?_, ?_, ?_⟩
  · have hch : (s.tabs.any fun t => t.id == tabId) = true :=
      List.any_eq_true.mpr ⟨tab, hmem, by simpa using hid⟩
    simp [step, sessionReducer, hch]
  · intro u hpu hne hneu
    have hcond : (u != "" && u != tab.url) = true := by
      simp [bne_iff_ne, hne, hneu]
    have harg : (tab.historyIndex + 1).toNat = tab.historyIndex.toNat + 1 := by omega
    simp only [patchOne, hpu, hcond, if_true]
    refine ⟨?_, by trivial, ?_⟩
    · rw [jsSliceTo_nonneg _ _ (by omega), harg]
      rfl
    · rw [jsSliceTo_nonneg _ _ (by omega), harg]
      simp only [List.length_append, List.length_take, List.length_cons,
        List.length_nil]
      omega
  · rintro (hpu | hpu | hpu) <;> simp [patchOne, hpu]

/-- Witness for C4: patching the default tab with a fresh non-empty url. -/
theorem tabPatch_url_history_witness :
    (defaultTab 0 ∈ (defaultState 0).tabs ∧ (defaultTab 0).id = "tab-1" ∧
      0 ≤ (defaultTab 0).historyIndex ∧
      (defaultTab 0).historyIndex < ((defaultTab 0).history.length : Int)) ∧
    (step 7 (defaultState 0) (SessionAction.tabPatch "tab-1" { url := some "https://a" })).tabs =
      ((defaultState 0).tabs.map fun t =>
        if t.id == "tab-1" then patchOne 7 t { url := some "https://a" } else t) :=
  ⟨⟨by decide, by decide, by decide, by decide⟩,
    (tabPatch_url_history 7 (defaultState 0) "tab-1" { url := some "https://a" }
      (defaultTab 0) (by decide) (by decide) (by decide) (by decide)).1⟩

/-- C5 (amended): rehydrating the snapshot saved from a well-formed state
reproduces activeTabId, tabGroups, settings, recentlyClosed, the suggestion
history and the version unchanged, and flips `hydrated` to true; the tabs are
reproduced unchanged except that the tab named by `activeTabId` has its
`lastActiveAt` set to the rehydration clock reading. -/
theorem rehydrate_roundtrip (tSave tLoad : Nat) (s : SessionState)
    (hhist : historyInvB s = true) (hactive : activeInvB s = true)
    (hids : TabIdsNodup s)
    (hnull : s.activeTabId = none → (s.tabs.all fun t => !t.active) = true) :
    step tLoad s (SessionAction.sessionRehydrate (saveSessionSnapshot tSave s)) =
      { s with
          tabs := s.tabs.map fun t =>
            if some t.id = s.activeTabId then { t with lastActiveAt := tLoad } else t
          hydrated := true } := by
  have hnorm : s.tabs.map normalizeTab = s.tabs := by
    have h := List.map_congr_left (l := s.tabs) (f := normalizeTab) (g := id) ?_
    · simpa using h
    · intro t ht
      exact normalizeTab_eq_self
        (List.all_eq_true.mp (by simpa [historyInvB] using hhist) t ht)
  have htabs : applyActiveState s.tabs s.activeTabId tLoad =
      s.tabs.map fun t =>
        if some t.id = s.activeTabId then { t with lastActiveAt := tLoad } else t := by
    unfold applyActiveState
    apply List.map_congr_left
    intro t ht
    by_cases hm : some t.id = s.activeTabId
    · have hbeq : (some t.id == s.activeTabId) = true := by simpa using hm
      rw [if_pos hbeq, if_pos hm]
      have hact : t.active = true := by
        obtain ⟨hc, hall⟩ := (activeInvB_iff s).mp hactive t.id hm.symm
        have hpos : 0 < s.tabs.countP fun t => t.active := by omega
        obtain ⟨t', ht', hact'⟩ := List.countP_pos_iff.mp hpos
        have hid' : t'.id = t.id := hall t' ht' hact'
        have heq := List.inj_on_of_nodup_map hids ht' ht hid'
        rw [← heq]
        exact hact'
      rw [if_pos hact]
    · have hbeq : ¬ (some t.id == s.activeTabId) = true := by simpa using hm
      rw [if_neg hbeq, if_neg hm]
      have hact : t.active = false := by
        cases ho : s.activeTabId with
        | none =>
          have h := List.all_eq_true.mp (hnull ho) t ht
          simpa using h
        | some aid =>
          by_contra hcon
          have hbt : t.active = true := by
            revert hcon
            cases t.active <;> simp
          have hq := ((activeInvB_iff s).mp hactive aid ho).2 t ht hbt
          exact hm (by rw [hq, ho])
      rw [if_pos (by simp [hact])]
  simp only [step, sessionReducer, saveSessionSnapshot]
  rw [hnorm, htabs]

/-- Witness for C5 at the default state. -/
theorem rehydrate_roundtrip_witness :
    (historyInvB (defaultState 0) = true ∧ activeInvB (defaultState 0) = true ∧
      TabIdsNodup (defaultState 0)) ∧
    step 0 (defaultState 0)
        (SessionAction.sessionRehydrate (saveSessionSnapshot 0 (defaultState 0))) =
      { defaultState 0 with
          tabs := (defaultState 0).tabs.map fun t =>
            if some t.id = (defaultState 0).activeTabId then { t with lastActiveAt := 0 }
            else t
          hydrated := true } :=
  ⟨⟨by decide, by decide, by decide⟩,
    rehydrate_roundtrip 0 0 (defaultState 0) (by decide) (by decide) (by decide)
      (fun h => absurd h (by decide))⟩

theorem mem_applyActiveState_bounds (tabs : List Tab) (aid : Option String) (ts : Nat)
    (h : ∀ t ∈ tabs, tabBoundsB t = true) :
    ∀ t ∈ applyActiveState tabs aid ts, tabBoundsB t = true := by
  intro t' ht'
  unfold applyActiveState at ht'
  rw [List.mem_map] at ht'
  obtain ⟨t, ht, rfl⟩ := ht'
  have hb := h t ht
  split <;> split <;> exact hb

/-- C8 (amended): `normalizeTab` synthesizes a one-entry history from
url/title/createdAt for an empty (or, equivalently, missing) history, clamps
an out-of-range (or, equivalently, non-numeric) historyIndex to the tail, and
always establishes `history.length ≥ 1 ∧ 0 ≤ historyIndex < history.length`;
every reducer transition preserves these bounds provided the tabs injected
verbatim by the action (TAB_ADD's tab, TAB_CLOSE_ALL's newTab) satisfy them
themselves. -/
theorem history_bounds_invariant (now : Nat) :
    (∀ raw : Tab, raw.history = [] →
      (normalizeTab raw).history =
        [{ id := raw.id ++ "-history-" ++ toString raw.createdAt
           url := raw.url
           title := raw.title
           timestamp := raw.createdAt }]) ∧
    (∀ raw : Tab,
      ¬(0 ≤ raw.historyIndex ∧
          raw.historyIndex < ((normalizeTab raw).history.length : Int)) →
      (normalizeTab raw).historyIndex = ((normalizeTab raw).history.length : Int) - 1) ∧
    (∀ raw : Tab, tabBoundsB (normalizeTab raw) = true) ∧
    (∀ (s : SessionState) (a : SessionAction),
      historyInvB s = true → historyOkAction a = true →
      historyInvB (step now s a) = true) := by
  refine ⟨?_, ?_, normalizeTab_bounds, ?_⟩
  · intro raw h
    simp [normalizeTab, h]
  · intro raw h
    simp only [normalizeTab] at h ⊢
    rw [if_neg h]
  · intro s a hinv hok
    simp only [historyInvB, List.all_eq_true] at hinv ⊢
    cases a with
    | tabAdd tab makeActive =>
      simp only [historyOkAction] at hok
      simp only [step, sessionReducer]
      intro t ht
      rw [List.mem_append] at ht
      rcases ht with ht | ht
      · rw [List.mem_map] at ht
        obtain ⟨t', ht', rfl⟩ := ht
        have hb := hinv t' ht'
        split <;> exact hb
      · rw [List.mem_singleton] at ht
        subst ht
        split <;> exact hok
    | tabClose tabId reason =>
      simp only [step, sessionReducer]
      split
      · exact hinv
      · split
        · apply mem_applyActiveState_bounds
          intro t ht
          exact hinv t (List.mem_of_mem_filter ht)
        · exact hinv
    | tabSetActive tabId =>
      simp only [step, sessionReducer]
      split
      · exact hinv
      · split
        · exact hinv
        · exact mem_applyActiveState_bounds _ _ _ hinv
    | tabPatch tabId patch =>
      simp only [step, sessionReducer]
      split
      · exact hinv
      · intro t ht
        rw [List.mem_map] at ht
        obtain ⟨t', ht', rfl⟩ := ht
        split
        · exact tabBoundsB_patchOne (hinv t' ht') now patch
        · exact hinv t' ht'
    | tabSetAssistant tabId isOpen =>
      simp only [step, sessionReducer]
      intro t ht
      rw [List.mem_map] at ht
      obtain ⟨t', ht', rfl⟩ := ht
      have hb := hinv t' ht'
      split
      · split <;> exact hb
      · exact hb
    | tabAppendChat tabId message =>
      simp only [step, sessionReducer]
      intro t ht
      rw [List.mem_map] at ht
      obtain ⟨t', ht', rfl⟩ := ht
      have hb := hinv t' ht'
      split <;> exact hb
    | tabSetStatus tabId status =>
      simp only [step, sessionReducer]
      intro t ht
      rw [List.mem_map] at ht
      obtain ⟨t', ht', rfl⟩ := ht
      have hb := hinv t' ht'
      split
      · split <;> exact hb
      · exact hb
    | tabAssignGroup tabId groupId =>
      simp only [step, sessionReducer]
      intro t ht
      rw [List.mem_map] at ht
      obtain ⟨t', ht', rfl⟩ := ht
      have hb := hinv t' ht'
      split <;> exact hb
    | tabReorder pinnedIds regularIds =>
      simp only [step, sessionReducer]
      apply mem_applyActiveState_bounds
      intro t ht
      rw [List.mem_append] at ht
      rcases ht with ht | ht
      · rw [List.mem_append] at ht
        rcases ht with ht | ht
        · rw [List.mem_map] at ht
          obtain ⟨t', ht', rfl⟩ := ht
          rw [List.mem_filterMap] at ht'
          obtain ⟨i, _, hi⟩ := ht'
          have hb := hinv t' (mapGet_mem hi)
          split <;> exact hb
        · rw [List.mem_map] at ht
          obtain ⟨t', ht', rfl⟩ := ht
          rw [List.mem_filterMap] at ht'
          obtain ⟨i, _, hi⟩ := ht'
          have hb := hinv t' (mapGet_mem hi)
          split <;> exact hb
      · exact hinv t (List.mem_of_mem_filter ht)
    | tabReopen entry =>
      simp only [step, sessionReducer]
      split
      · exact hinv
      · intro t ht
        rw [List.mem_append] at ht
        rcases ht with ht | ht
        · rw [List.mem_map] at ht
          obtain ⟨t', ht', rfl⟩ := ht
          have hb := hinv t' ht'
          split <;> exact hb
        · rw [List.mem_singleton] at ht
          subst ht
          exact normalizeTab_bounds _
    | suggestionAdd value =>
      simp only [step, sessionReducer]
      split
      · exact hinv
      · exact hinv
    | sessionRehydrate payload =>
      simp only [step, sessionReducer]
      apply mem_applyActiveState_bounds
      intro t ht
      rw [List.mem_map] at ht
      obtain ⟨t', _, rfl⟩ := ht
      exact normalizeTab_bounds t'
    | sessionReady =>
      simp only [step, sessionReducer]
      split
      · exact hinv
      · exact hinv
    | sessionUpdateSettings payload =>
      simp only [step, sessionReducer]
      exact hinv
    | tabGroupUpsert payload =>
      simp only [step, sessionReducer]
      exact hinv
    | tabGroupDelete groupId =>
      simp only [step, sessionReducer]
      intro t ht
      rw [List.mem_map] at ht
      obtain ⟨t', ht', rfl⟩ := ht
      have hb := hinv t' ht'
      split <;> exact hb
    | tabGroupToggleCollapse groupId =>
      simp only [step, sessionReducer]
      split
      · exact hinv
      · exact hinv
    | tabCloseAll newTab =>
      simp only [historyOkAction] at hok
      simp only [step, sessionReducer]
      intro t ht
      rw [List.mem_singleton] at ht
      subst ht
      exact hok

/-- Witness for C8: the default state satisfies the bounds and a TAB_ADD of a
fresh blank tab preserves them. -/
theorem history_bounds_invariant_witness :
    (historyInvB (defaultState 0) = true ∧
      historyOkAction (SessionAction.tabAdd (createBlankTab 1 "tab-2" {}) true) = true) ∧
    historyInvB (step 1 (defaultState 0)
      (SessionAction.tabAdd (createBlankTab 1 "tab-2" {}) true)) = true :=
  ⟨⟨by decide, by decide⟩,
    (history_bounds_invariant 1).2.2.2 (defaultState 0)
      (SessionAction.tabAdd (createBlankTab 1 "tab-2" {}) true) (by decide) (by decide)⟩

/-- C1 (amended): the active-tab invariant — whenever `activeTabId` is
non-null, exactly one tab is active and it carries that id — is preserved by
every reducer transition on states with pairwise-distinct tab ids, provided:
TAB_ADD has `makeActive = true` (as the facade always dispatches), a patch
does not set `active` or `id`, the reorder id lists are duplicate-free, a
rehydrated snapshot names exactly one existing tab as active, and
TAB_CLOSE_ALL's fresh tab is active.  TAB_ADD with `makeActive = false`
violates it (see the counterexample). -/
theorem activeInv_preserved (now : Nat) (s : SessionState) (a : SessionAction)
    (hinv : activeInvB s = true) (hids : TabIdsNodup s)
    (hok : activeOkAction a = true) :
    activeInvB (step now s a) = true := by
  cases a with
  | tabAdd tab makeActive =>
    have hmk : makeActive = true := hok
    subst hmk
    have hstep : step now s (SessionAction.tabAdd tab true) =
        { s with
            tabs := (s.tabs.map fun t => if t.active then { t with active := false } else t)
              ++ [{ tab with active := true, lastActiveAt := now }]
            activeTabId := some tab.id } := rfl
    rw [hstep, activeInvB_iff]
    intro aid haid
    have haid' : tab.id = aid := by simpa using haid
    constructor
    · show ((s.tabs.map fun t : Tab => if t.active then { t with active := false } else t)
        ++ [{ tab with active := true, lastActiveAt := now }]).countP (fun t : Tab => t.active) = 1
      rw [List.countP_append, countP_active_deactivated]
      rfl
    · intro t ht hact
      rw [List.mem_append] at ht
      rcases ht with ht | ht
      · rw [List.mem_map] at ht
        obtain ⟨t', _, rfl⟩ := ht
        revert hact
        split
        · intro hact
          exact absurd hact (by simp)
        · rename_i hcond
          intro hact
          exact absurd hact hcond
      · rw [List.mem_singleton] at ht
        subst ht
        exact haid'
  | tabClose tabId reason =>
    simp only [step, sessionReducer]
    split
    · exact hinv
    · split
      · rename_i hlen hidx
        rw [activeInvB_iff]
        intro aid haid
        dsimp only at haid ⊢
        constructor
        · rw [countP_active_applyActiveState, haid]
          rw [List.countP_congr (q := fun t : Tab => t.id == aid) (fun t _ => by simp)]
          rw [countP_id_eq_count]
          have hsub : idsOf (s.tabs.filter fun t =>
              !(t.id == (s.tabs.get ⟨s.tabs.findIdx fun t => t.id == tabId, hidx⟩).id)) =
              (idsOf s.tabs).filter fun i =>
                !(i == (s.tabs.get ⟨s.tabs.findIdx fun t => t.id == tabId, hidx⟩).id) :=
            idsOf_filter_on_id s.tabs
              (fun i => !(i == (s.tabs.get ⟨s.tabs.findIdx fun t => t.id == tabId, hidx⟩).id))
          have hnd : (idsOf (s.tabs.filter fun t =>
              !(t.id == (s.tabs.get ⟨s.tabs.findIdx fun t => t.id == tabId, hidx⟩).id))).Nodup := by
            rw [hsub]
            exact List.Nodup.filter _ hids
          apply List.count_eq_one_of_mem hnd
          -- membership: split on whether the removed tab was the active one
          revert haid
          split
          · -- removed was active: aid is the fallback tab's id
            intro haid
            rw [Option.map_eq_some'] at haid
            obtain ⟨fb, hfb, hfbid⟩ := haid
            have hmem : fb ∈ s.tabs.filter fun t =>
                !(t.id == (s.tabs.get ⟨s.tabs.findIdx fun t => t.id == tabId, hidx⟩).id) := by
              rcases orElse_eq_some_cases _ _ _ hfb with hg | hg
              · exact jsGet_mem hg
              · exact jsGet_mem hg
            rw [hsub] at hnd ⊢
            rw [← hfbid]
            have : fb.id ∈ idsOf (s.tabs.filter fun t =>
                !(t.id == (s.tabs.get ⟨s.tabs.findIdx fun t => t.id == tabId, hidx⟩).id)) :=
              List.mem_map.mpr ⟨fb, hmem, rfl⟩
            rw [hsub] at this
            exact this
          · -- removed was not active: the prior active tab survives the filter
            rename_i hne
            intro haid
            obtain ⟨hc, hall⟩ := (activeInvB_iff s).mp hinv aid haid
            have hpos : 0 < s.tabs.countP fun t => t.active := by omega
            obtain ⟨t0, ht0, hact0⟩ := List.countP_pos_iff.mp hpos
            have hid0 : t0.id = aid := hall t0 ht0 hact0
            have hkeep : (!(t0.id ==
                (s.tabs.get ⟨s.tabs.findIdx fun t => t.id == tabId, hidx⟩).id)) = true := by
              have : ¬ (s.tabs.get ⟨s.tabs.findIdx fun t => t.id == tabId, hidx⟩).id = aid := by
                intro hcontra
                apply hne
                rw [hcontra, haid]
                simp
              simp only [Bool.not_eq_true', beq_eq_false_iff_ne]
              intro hcontra
              exact this (by rw [← hcontra, hid0])
            rw [← hid0]
            exact List.mem_map.mpr ⟨t0, List.mem_filter.mpr ⟨ht0, hkeep⟩, rfl⟩
        · intro t ht hact
          have hm := mem_applyActiveState_active _ _ _ t ht hact
          rw [haid] at hm
          simpa using hm
      · exact hinv
  | tabSetActive tabId =>
    simp only [step, sessionReducer]
    split
    · exact hinv
    · split
      · exact hinv
      · rename_i h1 h2
        rw [activeInvB_iff]
        intro aid haid
        dsimp only at haid ⊢
        rw [Option.some.injEq] at haid
        subst haid
        constructor
        · rw [countP_active_applyActiveState]
          rw [List.countP_congr (q := fun t : Tab => t.id == tabId) (fun t _ => by simp)]
          rw [countP_id_eq_count]
          have h2' : (s.tabs.any fun t => t.id == tabId) = true := by
            revert h2
            cases (s.tabs.any fun t => t.id == tabId) <;> simp
          obtain ⟨t0, ht0, hbt⟩ := List.any_eq_true.mp h2'
          have hmemid : tabId ∈ idsOf s.tabs := by
            rw [← (by simpa using hbt : t0.id = tabId)]
            exact List.mem_map.mpr ⟨t0, ht0, rfl⟩
          exact List.count_eq_one_of_mem hids hmemid
        · intro t ht hact
          have hm := mem_applyActiveState_active _ _ _ t ht hact
          simpa using hm
  | tabPatch tabId patch =>
    simp only [activeOkAction, Bool.and_eq_true, Option.isNone_iff_eq_none] at hok
    obtain ⟨hpa, hpi⟩ := hok
    simp only [step, sessionReducer]
    split
    · exact hinv
    · rw [activeInvB_iff]
      intro aid haid
      dsimp only at haid ⊢
      obtain ⟨hc, hall⟩ := (activeInvB_iff s).mp hinv aid haid
      constructor
      · rw [countP_active_map_pres]
        · exact hc
        · intro t ht
          split
          · exact patchOne_active hpa now t
          · rfl
      · apply all_active_id_map_pres _ _ _ ?_ ?_ hall
        · intro t ht
          split
          · exact patchOne_active hpa now t
          · rfl
        · intro t ht
          split
          · exact patchOne_id hpi now t
          · rfl
  | tabSetAssistant tabId isOpen =>
    simp only [step, sessionReducer]
    rw [activeInvB_iff]
    intro aid haid
    dsimp only at haid ⊢
    obtain ⟨hc, hall⟩ := (activeInvB_iff s).mp hinv aid haid
    constructor
    · rw [countP_active_map_pres]
      · exact hc
      · intro t ht
        split
        · split <;> rfl
        · rfl
    · apply all_active_id_map_pres _ _ _ ?_ ?_ hall
      · intro t ht
        split
        · split <;> rfl
        · rfl
      · intro t ht
        split
        · split <;> rfl
        · rfl
  | tabAppendChat tabId message =>
    simp only [step, sessionReducer]
    rw [activeInvB_iff]
    intro aid haid
    dsimp only at haid ⊢
    obtain ⟨hc, hall⟩ := (activeInvB_iff s).mp hinv aid haid
    constructor
    · rw [countP_active_map_pres]
      · exact hc
      · intro t ht
        split <;> rfl
    · apply all_active_id_map_pres _ _ _ ?_ ?_ hall
      · intro t ht
        split <;> rfl
      · intro t ht
        split <;> rfl
  | tabSetStatus tabId status =>
    simp only [step, sessionReducer]
    rw [activeInvB_iff]
    intro aid haid
    dsimp only at haid ⊢
    obtain ⟨hc, hall⟩ := (activeInvB_iff s).mp hinv aid haid
    constructor
    · rw [countP_active_map_pres]
      · exact hc
      · intro t ht
        split
        · split <;> rfl
        · rfl
    · apply all_active_id_map_pres _ _ _ ?_ ?_ hall
      · intro t ht
        split
        · split <;> rfl
        · rfl
      · intro t ht
        split
        · split <;> rfl
        · rfl
  | tabAssignGroup tabId groupId =>
    simp only [step, sessionReducer]
    rw [activeInvB_iff]
    intro aid haid
    dsimp only at haid ⊢
    obtain ⟨hc, hall⟩ := (activeInvB_iff s).mp hinv aid haid
    constructor
    · rw [countP_active_map_pres]
      · exact hc
      · intro t ht
        split <;> rfl
    · apply all_active_id_map_pres _ _ _ ?_ ?_ hall
      · intro t ht
        split <;> rfl
      · intro t ht
        split <;> rfl
  | tabReorder pinnedIds regularIds =>
    have hnd : (pinnedIds ++ regularIds).Nodup := of_decide_eq_true hok
    simp only [step, sessionReducer]
    rw [activeInvB_iff]
    intro aid haid
    dsimp only at haid ⊢
    obtain ⟨hc, hall⟩ := (activeInvB_iff s).mp hinv aid haid
    constructor
    · rw [countP_active_applyActiveState, haid]
      rw [List.countP_congr (q := fun t : Tab => t.id == aid) (fun t _ => by simp)]
      rw [countP_id_eq_count]
      rw [(reorder_merged_perm s pinnedIds regularIds hids hnd).count_eq]
      have hpos : 0 < s.tabs.countP fun t => t.active := by omega
      obtain ⟨t0, ht0, hact0⟩ := List.countP_pos_iff.mp hpos
      have hmemid : aid ∈ idsOf s.tabs := by
        rw [← hall t0 ht0 hact0]
        exact List.mem_map.mpr ⟨t0, ht0, rfl⟩
      exact List.count_eq_one_of_mem hids hmemid
    · intro t ht hact
      have hm := mem_applyActiveState_active _ _ _ t ht hact
      rw [haid] at hm
      simpa using hm
  | tabReopen entry =>
    simp only [step, sessionReducer]
    split
    · exact hinv
    · rw [activeInvB_iff]
      intro aid haid
      dsimp only at haid ⊢
      constructor
      · rw [List.countP_append, countP_active_deactivated]
        rfl
      · intro t ht hact
        rw [List.mem_append] at ht
        rcases ht with ht | ht
        · rw [List.mem_map] at ht
          obtain ⟨t', _, rfl⟩ := ht
          revert hact
          split
          · intro hact
            exact absurd hact (by simp)
          · rename_i hcond
            intro hact
            exact absurd hact hcond
        · rw [List.mem_singleton] at ht
          subst ht
          simpa using haid
  | suggestionAdd value =>
    simp only [step, sessionReducer]
    split
    · exact hinv
    · exact hinv
  | sessionRehydrate payload =>
    simp only [step, sessionReducer]
    rw [activeInvB_iff]
    intro aid haid
    dsimp only at haid ⊢
    simp only [activeOkAction, haid] at hok
    have hcnt : (payload.state.tabs.countP fun t => t.id == aid) = 1 := by
      simpa using hok
    constructor
    · rw [countP_active_applyActiveState, haid]
      rw [List.countP_congr (q := fun t : Tab => t.id == aid) (fun t _ => by simp)]
      rw [List.countP_map]
      exact hcnt
    · intro t ht hact
      have hm := mem_applyActiveState_active _ _ _ t ht hact
      rw [haid] at hm
      simpa using hm
  | sessionReady =>
    simp only [step, sessionReducer]
    split
    · exact hinv
    · exact hinv
  | sessionUpdateSettings payload =>
    exact hinv
  | tabGroupUpsert payload =>
    exact hinv
  | tabGroupDelete groupId =>
    simp only [step, sessionReducer]
    rw [activeInvB_iff]
    intro aid haid
    dsimp only at haid ⊢
    obtain ⟨hc, hall⟩ := (activeInvB_iff s).mp hinv aid haid
    constructor
    · rw [countP_active_map_pres]
      · exact hc
      · intro t ht
        split <;> rfl
    · apply all_active_id_map_pres _ _ _ ?_ ?_ hall
      · intro t ht
        split <;> rfl
      · intro t ht
        split <;> rfl
  | tabGroupToggleCollapse groupId =>
    simp only [step, sessionReducer]
    split
    · exact hinv
    · exact hinv
  | tabCloseAll newTab =>
    have hna : newTab.active = true := hok
    simp only [step, sessionReducer]
    rw [activeInvB_iff]
    intro aid haid
    dsimp only at haid ⊢
    constructor
    · simp [List.countP_cons, hna]
    · intro t ht hact
      rw [List.mem_singleton] at ht
      subst ht
      simpa using haid

/-- Witness for C1: a facade-style TAB_ADD (makeActive = true) on the default
state preserves the active-tab invariant. -/
theorem activeInv_preserved_witness :
    (activeInvB (defaultState 0) = true ∧ TabIdsNodup (defaultState 0) ∧
      activeOkAction (SessionAction.tabAdd (createBlankTab 1 "tab-2" {}) true) = true) ∧
    activeInvB (step 1 (defaultState 0)
      (SessionAction.tabAdd (createBlankTab 1 "tab-2" {}) true)) = true :=
  ⟨⟨by decide, by decide, by decide⟩,
    activeInv_preserved 1 (defaultState 0)
      (SessionAction.tabAdd (createBlankTab 1 "tab-2" {}) true)
      (by decide) (by decide) (by decide)⟩

/-- C8 counterexample: TAB_ADD injects its payload tab verbatim, so adding a
tab whose history is empty (bounds violated) breaks the history invariant —
the transition does not preserve it unconditionally. -/
theorem tabAdd_unbounded_tab_counterexample :
    historyInvB (defaultState 0) = true ∧
    tabBoundsB { blankTab "bad" with history := ([] : List TabHistoryEntry) } = false ∧
    historyInvB (step 3 (defaultState 0)
      (SessionAction.tabAdd { blankTab "bad" with history := ([] : List TabHistoryEntry) }
        true)) = false := by
  refine ⟨by decide, by decide, by decide⟩

end Rudra
